import Mathlib

/-!
Shallow embedding of `pkg/builtin/builtin.go` (gptscript builtin tool
registry and its five handlers) and proofs of the specification claims.

Effects are made explicit:
  * the local filesystem is a value of type `FS` (an association list from
    path to content) threaded through the file handlers;
  * the network is an oracle function passed to the HTTP handlers, mapping
    a request to either a transport failure or an `HTTPResponse`;
  * Go's `(string, error)` return pair becomes `Except String String`.

JSON decoding (`json.Unmarshal` into a struct of string fields) is embedded
in two stages, mirroring the Go library: a parser from the input string to a
JSON value, and a field-extraction stage.  The field-extraction stage models
the documented behaviour of `encoding/json`: a top-level value that is not an
object (and not `null`) is a decode error; object keys are matched to struct
fields case-insensitively; unknown keys are ignored; among several keys
matching the same field the last one wins; a JSON `null` value leaves the
field untouched; a matching key whose value is not a string is a decode
error; absent fields keep their zero value (the empty string).
-/

/-- JSON values, as produced by parsing the handler input string.
Numbers are kept as their source text: the handlers only decode string
fields, so a number can only ever be an ignored unknown field or a type
error. -/
inductive JSON where
  | str : String → JSON
  | num : String → JSON
  | bool : Bool → JSON
  | null : JSON
  | arr : List JSON → JSON
  | obj : List (String × JSON) → JSON

/-- JSON whitespace, per RFC 8259 (the grammar `encoding/json` accepts). -/
def isWs (c : Char) : Bool :=
  c == ' ' || c == '\t' || c == '\n' || c == '\r'

/-- Drop leading JSON whitespace. -/
def skipWs : List Char → List Char
  | [] => []
  | c :: cs => if isWs c then skipWs cs else c :: cs

/-- Value of a hexadecimal digit. -/
def hexDigit (c : Char) : Option Nat :=
  if '0' ≤ c ∧ c ≤ '9' then some (c.toNat - '0'.toNat)
  else if 'a' ≤ c ∧ c ≤ 'f' then some (c.toNat - 'a'.toNat + 10)
  else if 'A' ≤ c ∧ c ≤ 'F' then some (c.toNat - 'A'.toNat + 10)
  else none

/-- Translation of a single-character JSON escape sequence. -/
def unescape (c : Char) : Option Char :=
  if c = '"' then some '"'
  else if c = '\\' then some '\\'
  else if c = '/' then some '/'
  else if c = 'b' then some (Char.ofNat 8)
  else if c = 'f' then some (Char.ofNat 12)
  else if c = 'n' then some '\n'
  else if c = 'r' then some '\r'
  else if c = 't' then some '\t'
  else none

/-- Parse the body of a JSON string literal (the opening quote already
consumed), accumulating decoded characters in reverse in `acc`.  Returns the
decoded string and the input remaining after the closing quote. -/
def parseJStr : List Char → List Char → Option (String × List Char)
  | _, [] => none
  | acc, '"' :: rest => some (String.mk acc.reverse, rest)
  | acc, '\\' :: 'u' :: h1 :: h2 :: h3 :: h4 :: rest =>
    match hexDigit h1, hexDigit h2, hexDigit h3, hexDigit h4 with
    | some a, some b, some c, some d =>
      parseJStr (Char.ofNat (a * 4096 + b * 256 + c * 16 + d) :: acc) rest
    | _, _, _, _ => none
  | acc, '\\' :: c :: rest =>
    match unescape c with
    | some d => parseJStr (d :: acc) rest
    | none => none
  | acc, c :: rest =>
    if c.toNat < 32 then none else parseJStr (c :: acc) rest

/-- Take the longest run of leading decimal digits. -/
def takeDigits : List Char → List Char × List Char
  | [] => ([], [])
  | c :: cs =>
    if c.isDigit then
      let p := takeDigits cs
      (c :: p.1, p.2)
    else ([], c :: cs)

/-- Parse an optional fraction part `.digits`. -/
def parseFrac (cs : List Char) : Option (List Char × List Char) :=
  match cs with
  | '.' :: rest =>
    let p := takeDigits rest
    if p.1.isEmpty then none else some ('.' :: p.1, p.2)
  | _ => some ([], cs)

/-- Parse an optional exponent part `(e|E)(+|-)?digits`. -/
def parseExp (cs : List Char) : Option (List Char × List Char) :=
  match cs with
  | [] => some ([], [])
  | c :: rest =>
    if c = 'e' ∨ c = 'E' then
      match rest with
      | s :: rest₂ =>
        if s = '+' ∨ s = '-' then
          let p := takeDigits rest₂
          if p.1.isEmpty then none else some (c :: s :: p.1, p.2)
        else
          let p := takeDigits rest
          if p.1.isEmpty then none else some (c :: p.1, p.2)
      | [] => none
    else some ([], cs)

/-- Combine the integer part with fraction and exponent. -/
def parseNumTail (intPart : List Char) (cs : List Char) : Option (String × List Char) :=
  match parseFrac cs with
  | none => none
  | some (f, cs₂) =>
    match parseExp cs₂ with
    | none => none
    | some (e, cs₃) => some (String.mk (intPart ++ f ++ e), cs₃)

/-- Integer part of a JSON number after the optional sign: a lone `0` or a
nonzero digit followed by digits (leading zeros are invalid JSON). -/
def parseNumBody (sign : List Char) (cs : List Char) : Option (String × List Char) :=
  match cs with
  | [] => none
  | '0' :: rest => parseNumTail (sign ++ ['0']) rest
  | c :: rest =>
    if c.isDigit then
      let p := takeDigits rest
      parseNumTail (sign ++ c :: p.1) p.2
    else none

/-- Parse a JSON number literal, returned as its source text. -/
def parseNum (cs : List Char) : Option (String × List Char) :=
  match cs with
  | '-' :: rest => parseNumBody ['-'] rest
  | _ => parseNumBody [] cs

mutual

/-- Parse one JSON value (fuel-indexed recursive descent).  The fuel bounds
the nesting depth; `parseJSON` supplies more fuel than any input can use. -/
def parseVal : Nat → List Char → Option (JSON × List Char)
  | 0, _ => none
  | fuel + 1, cs =>
    match skipWs cs with
    | [] => none
    | '{' :: rest =>
      match skipWs rest with
      | '}' :: rest₂ => some (.obj [], rest₂)
      | rest₂ =>
        match parseMembers fuel rest₂ with
        | some (ms, rest₃) => some (.obj ms, rest₃)
        | none => none
    | '[' :: rest =>
      match skipWs rest with
      | ']' :: rest₂ => some (.arr [], rest₂)
      | rest₂ =>
        match parseElems fuel rest₂ with
        | some (es, rest₃) => some (.arr es, rest₃)
        | none => none
    | '"' :: rest =>
      match parseJStr [] rest with
      | some (s, rest₂) => some (.str s, rest₂)
      | none => none
    | 't' :: 'r' :: 'u' :: 'e' :: rest => some (.bool true, rest)
    | 'f' :: 'a' :: 'l' :: 's' :: 'e' :: rest => some (.bool false, rest)
    | 'n' :: 'u' :: 'l' :: 'l' :: rest => some (.null, rest)
    | rest =>
      match parseNum rest with
      | some (s, rest₂) => some (.num s, rest₂)
      | none => none

/-- Parse the members of a JSON object, positioned at the first key. -/
def parseMembers : Nat → List Char → Option (List (String × JSON) × List Char)
  | 0, _ => none
  | fuel + 1, cs =>
    match skipWs cs with
    | '"' :: rest =>
      match parseJStr [] rest with
      | none => none
      | some (k, rest₁) =>
        match skipWs rest₁ with
        | ':' :: rest₂ =>
          match parseVal fuel rest₂ with
          | none => none
          | some (v, rest₃) =>
            match skipWs rest₃ with
            | ',' :: rest₄ =>
              match parseMembers fuel rest₄ with
              | some (ms, rest₅) => some ((k, v) :: ms, rest₅)
              | none => none
            | '}' :: rest₄ => some ([(k, v)], rest₄)
            | _ => none
        | _ => none
    | _ => none

/-- Parse the elements of a JSON array, positioned at the first element. -/
def parseElems : Nat → List Char → Option (List JSON × List Char)
  | 0, _ => none
  | fuel + 1, cs =>
    match parseVal fuel cs with
    | none => none
    | some (v, rest) =>
      match skipWs rest with
      | ',' :: rest₂ =>
        match parseElems fuel rest₂ with
        | some (es, rest₃) => some (v :: es, rest₃)
        | none => none
      | ']' :: rest₂ => some ([v], rest₂)
      | _ => none

end

/-- Parse a complete JSON document: one value, with only whitespace allowed
after it (trailing data is an error, as in `json.Unmarshal`). -/
def parseJSON (s : String) : Option JSON :=
  match parseVal (s.data.length + 1) s.data with
  | some (v, rest) => if skipWs rest = [] then some v else none
  | none => none

/-- ASCII lower-casing of one character. -/
def lowerChar (c : Char) : Char :=
  if 65 ≤ c.toNat ∧ c.toNat ≤ 90 then Char.ofNat (c.toNat + 32) else c

/-- Case-insensitive key comparison: `encoding/json` matches incoming object
keys to struct field tags preferring an exact match but also accepting a
case-insensitive match (ASCII folding; the declared tags are ASCII). -/
def eqFold (a b : String) : Bool :=
  a.data.map lowerChar == b.data.map lowerChar

/-- First stage of `json.Unmarshal` into a struct: the input must parse, and
the top-level value must be an object (whose fields are then matched) or
`null` (which leaves the struct at its zero value). -/
def unmarshalFields (input : String) : Except String (List (String × JSON)) :=
  match parseJSON input with
  | none => .error "invalid JSON input"
  | some (.obj fields) => .ok fields
  | some .null => .ok []
  | some _ => .error "json: cannot unmarshal value into Go struct"

/-- Walk the object fields in order, decoding every key that matches the
struct field `key` into a string field whose current value is `acc`: a
string value overwrites, `null` has no effect, any other value is a type
error; the last matching key wins. -/
def getStrFieldAux (key : String) : List (String × JSON) → String → Except String String
  | [], acc => .ok acc
  | (k, v) :: rest, acc =>
    if eqFold k key then
      match v with
      | .str s => getStrFieldAux key rest s
      | .null => getStrFieldAux key rest acc
      | _ => .error ("json: cannot unmarshal value into Go struct field " ++ key ++ " of type string")
    else getStrFieldAux key rest acc

/-- Decode the string-typed struct field `key` from the parsed object
fields; an absent field keeps the zero value, the empty string. -/
def getStrField (fields : List (String × JSON)) (key : String) : Except String String :=
  getStrFieldAux key fields ""

/-- Parameter struct of SysRead (anonymous in the source). -/
structure SysReadParams where
  Filename : String
  deriving DecidableEq

/-- Parameter struct of SysWrite (anonymous in the source). -/
structure SysWriteParams where
  Filename : String
  Content : String
  deriving DecidableEq

/-- Parameter struct of SysHTTPGet (anonymous in the source). -/
structure SysHTTPGetParams where
  URL : String
  deriving DecidableEq

/-- Parameter struct of SysHTTPPost (anonymous in the source). -/
structure SysHTTPPostParams where
  URL : String
  Content : String
  ContentType : String
  deriving DecidableEq

/-- Parameter struct of SysAbort (anonymous in the source). -/
structure SysAbortParams where
  Message : String
  deriving DecidableEq

/-- The `json.Unmarshal` call of SysRead. -/
def decodeSysReadParams (input : String) : Except String SysReadParams :=
  match unmarshalFields input with
  | .error e => .error e
  | .ok fields =>
    match getStrField fields "filename" with
    | .error e => .error e
    | .ok f => .ok ⟨f⟩

/-- The `json.Unmarshal` call of SysWrite. -/
def decodeSysWriteParams (input : String) : Except String SysWriteParams :=
  match unmarshalFields input with
  | .error e => .error e
  | .ok fields =>
    match getStrField fields "filename" with
    | .error e => .error e
    | .ok f =>
      match getStrField fields "content" with
      | .error e => .error e
      | .ok c => .ok ⟨f, c⟩

/-- The `json.Unmarshal` call of SysHTTPGet. -/
def decodeSysHTTPGetParams (input : String) : Except String SysHTTPGetParams :=
  match unmarshalFields input with
  | .error e => .error e
  | .ok fields =>
    match getStrField fields "url" with
    | .error e => .error e
    | .ok u => .ok ⟨u⟩

/-- The `json.Unmarshal` call of SysHTTPPost. -/
def decodeSysHTTPPostParams (input : String) : Except String SysHTTPPostParams :=
  match unmarshalFields input with
  | .error e => .error e
  | .ok fields =>
    match getStrField fields "url" with
    | .error e => .error e
    | .ok u =>
      match getStrField fields "content" with
      | .error e => .error e
      | .ok c =>
        match getStrField fields "contentType" with
        | .error e => .error e
        | .ok t => .ok ⟨u, c, t⟩

/-- The `json.Unmarshal` call of SysAbort. -/
def decodeSysAbortParams (input : String) : Except String SysAbortParams :=
  match unmarshalFields input with
  | .error e => .error e
  | .ok fields =>
    match getStrField fields "message" with
    | .error e => .error e
    | .ok m => .ok ⟨m⟩

/-- The local filesystem, as an association list from path to content; the
most recent write for a path is the first entry with that key. -/
def FS := List (String × String)

/-- Model of `os.ReadFile`: look the path up, failing like the OS does on a
missing file. -/
def readFile (fs : FS) (name : String) : Except String String :=
  match List.lookup name fs with
  | some data => .ok data
  | none => .error ("open " ++ name ++ ": no such file or directory")

/-- Model of `os.WriteFile` (mode 0644): create or truncate `name` with
`data`.  In this model every write is accepted; OS-level write failures
(permissions, disk) are out of scope. -/
def writeFile (fs : FS) (name : String) (data : String) : FS :=
  (name, data) :: fs

/-- An HTTP response as the handlers observe it: the numeric status code,
the status line text (`resp.Status`, e.g. "200 OK"), and the outcome of
reading the response body (`io.ReadAll`), which may itself fail. -/
structure HTTPResponse where
  statusCode : Nat
  status : String
  body : Except String String

/-- Outcome of issuing an HTTP request: a transport-level failure (DNS,
connection, TLS, or invalid request construction), or a response. -/
inductive HTTPResult where
  | fail : String → HTTPResult
  | resp : HTTPResponse → HTTPResult

/-- SysRead: decode `{filename}`, then read that file.  The `env` list is
part of the handler signature but unused, as in the source; the
cancellation context has no observable effect and is omitted. -/
def SysRead (env : List String) (fs : FS) (input : String) : Except String String :=
  match decodeSysReadParams input with
  | .error e => .error e
  | .ok params => readFile fs params.Filename

/-- SysWrite: decode `{filename, content}`, then overwrite the file,
returning the empty string on success (the byte-count message is only
logged). -/
def SysWrite (env : List String) (fs : FS) (input : String) : FS × Except String String :=
  match decodeSysWriteParams input with
  | .error e => (fs, .error e)
  | .ok params => (writeFile fs params.Filename params.Content, .ok "")

/-- SysHTTPGet: decode `{url}`, issue a GET through the oracle `get`, fail
unless the status code is exactly 200, then return the body. -/
def SysHTTPGet (get : String → HTTPResult) (env : List String) (input : String) :
    Except String String :=
  match decodeSysHTTPGetParams input with
  | .error e => .error e
  | .ok params =>
    match get params.URL with
    | .fail e => .error e
    | .resp r =>
      if r.statusCode ≠ 200 then
        .error ("failed to download " ++ params.URL ++ ": " ++ r.status)
      else
        match r.body with
        | .error e => .error e
        | .ok data => .ok data

/-- SysHTTPPost: decode `{url, content, contentType}`, issue a POST through
the oracle `post` (the Content-Type header is set only when `contentType`
is non-empty, modelled by the `Option String` argument), read and discard
the response body, fail when the status code exceeds 399, and otherwise
report the number of bytes written.  `String.utf8ByteSize` matches Go's
`len([]byte(s))`. -/
def SysHTTPPost (post : String → String → Option String → HTTPResult)
    (env : List String) (input : String) : Except String String :=
  match decodeSysHTTPPostParams input with
  | .error e => .error e
  | .ok params =>
    match post params.URL params.Content
        (if params.ContentType ≠ "" then some params.ContentType else none) with
    | .fail e => .error e
    | .resp r =>
      if r.statusCode > 399 then
        .error ("failed to post " ++ params.URL ++ ": " ++ r.status)
      else
        .ok ("Wrote " ++ toString params.Content.utf8ByteSize ++ " to " ++ params.URL)

/-- SysAbort: decode `{message}` and always fail with the ABORT-prefixed
message. -/
def SysAbort (env : List String) (input : String) : Except String String :=
  match decodeSysAbortParams input with
  | .error e => .error e
  | .ok params => .error ("ABORT: " ++ params.Message)

/-- Identifies which builtin handler a Tool carries (Go stores a function
pointer; a tag keeps descriptor equality decidable). -/
inductive HandlerId where
  | sysRead
  | sysWrite
  | sysHTTPGet
  | sysHTTPPost
  | sysAbort
  deriving DecidableEq

/-- Modelled from the spec: the `types.Tool` descriptor (package
`pkg/types` is outside the given sources).  Fields per spec section 3:
Name, ID, Instructions, Description, an argument schema, and the handler
reference; every field's Go zero value is the default. -/
structure Tool where
  Name : String := ""
  ID : String := ""
  Instructions : String := ""
  Description : String := ""
  Arguments : Option (List (String × String)) := none
  BuiltinFunc : Option HandlerId := none
  deriving DecidableEq

/-- Modelled from the spec: `types.ObjectSchema` (package `pkg/types` is
outside the given sources) builds the argument schema from parameter
name/description pairs. -/
def ObjectSchema (args : List (String × String)) : Option (List (String × String)) :=
  some args

/-- The Go zero value of `types.Tool`. -/
def zeroTool : Tool := {}

/-- The registry map `Tools`, as an association list with the source's
entries; map keys are unique.  As in the source, the stored values leave
Name, ID and Instructions at their zero values. -/
def Tools : List (String × Tool) := [
  ("sys.read",
    { Description := "Reads the contents of a file",
      Arguments := ObjectSchema [("filename", "The name of the file to read")],
      BuiltinFunc := some .sysRead }),
  ("sys.write",
    { Description := "Write the contents to a file",
      Arguments := ObjectSchema [("filename", "The name of the file to write to"),
        ("content", "The content to write")],
      BuiltinFunc := some .sysWrite }),
  ("sys.http.get",
    { Description := "Download the contents of a http or https URL",
      Arguments := ObjectSchema [("url", "The URL to download")],
      BuiltinFunc := some .sysHTTPGet }),
  ("sys.abort",
    { Description := "Aborts execution",
      Arguments := ObjectSchema [("message",
        "The description of the error or unexpected result that caused abort to be called")],
      BuiltinFunc := some .sysAbort }),
  ("sys.http.post",
    { Description := "Write contents to a http or https URL using the POST method",
      Arguments := ObjectSchema [("url", "The URL to POST to"),
        ("content", "The content to POST"),
        ("contentType",
          "The \"content type\" of the content such as application/json or text/plain")],
      BuiltinFunc := some .sysHTTPPost })]

/-- The lookup function `Builtin`: fetch the map entry (the zero Tool when
absent, as for a Go map miss), then set Name, ID and Instructions — note
the source sets these on the returned copy whether or not the name was
found. -/
def Builtin (name : String) : Tool × Bool :=
  let t := (List.lookup name Tools).getD zeroTool
  ({ t with Name := name, ID := name, Instructions := "#!" ++ name },
    (List.lookup name Tools).isSome)

/-- Lexicographic strict order on character lists by codepoint; on ASCII
keys this agrees with Go's byte-wise string order. -/
def charListLt : List Char → List Char → Bool
  | [], [] => false
  | [], _ :: _ => true
  | _ :: _, [] => false
  | a :: as, b :: bs =>
    if a.toNat < b.toNat then true
    else if a.toNat = b.toNat then charListLt as bs
    else false

/-- Strict lexicographic order on strings. -/
def strLt (a b : String) : Bool := charListLt a.data b.data

/-- Reflexive lexicographic order on strings. -/
def strLe (a b : String) : Bool := !(strLt b a)

/-- Insert a string into a sorted list (ascending). -/
def insertSorted (x : String) : List String → List String
  | [] => [x]
  | y :: ys => if strLe x y then x :: y :: ys else y :: insertSorted x ys

/-- Model of `sort.Strings`: sort ascending. -/
def sortStrings : List String → List String
  | [] => []
  | x :: xs => insertSorted x (sortStrings xs)

/-- `ListTools`: collect the registry keys, sort them, and look each one up
through `Builtin`, dropping the found flag. -/
def ListTools : List Tool :=
  (sortStrings (Tools.map Prod.fst)).map (fun key => (Builtin key).1)

/-- `needle` occurs as a contiguous substring of `hay`. -/
def strContains (hay needle : String) : Prop :=
  ∃ l r, hay.data = l ++ needle.data ++ r

/-- Keep only the object fields whose key case-insensitively matches one of
the declared parameter names of a handler. -/
def declaredOnly (names : List String) (fields : List (String × JSON)) :
    List (String × JSON) :=
  fields.filter (fun kv => names.any (fun d => eqFold kv.1 d))

/- ### Helper lemmas -/

theorem strContains_intro (hay needle : String) (l r : List Char)
    (h : hay.data = l ++ needle.data ++ r) : strContains hay needle :=
  ⟨l, r, h⟩

theorem unmarshalFields_of_parse {s : String} {fields : List (String × JSON)}
    (h : parseJSON s = some (.obj fields)) : unmarshalFields s = .ok fields := by
  simp [unmarshalFields, h]

theorem getStrFieldAux_of_noMatch (key : String) (fields : List (String × JSON))
    (h : ∀ kv ∈ fields, eqFold kv.1 key = false) (acc : String) :
    getStrFieldAux key fields acc = .ok acc := by
  induction fields generalizing acc with
  | nil => rfl
  | cons kv rest ih =>
    obtain ⟨k, v⟩ := kv
    have hk : eqFold k key = false := h (k, v) (by simp)
    simp only [getStrFieldAux, hk, Bool.false_eq_true, if_false]
    exact ih (fun kv hkv => h kv (by simp [hkv])) acc

theorem getStrField_of_noMatch (key : String) (fields : List (String × JSON))
    (h : ∀ kv ∈ fields, eqFold kv.1 key = false) :
    getStrField fields key = .ok "" :=
  getStrFieldAux_of_noMatch key fields h ""

theorem getStrFieldAux_filter (key : String) (p : String × JSON → Bool)
    (hp : ∀ kv, eqFold kv.1 key = true → p kv = true)
    (fields : List (String × JSON)) (acc : String) :
    getStrFieldAux key (fields.filter p) acc = getStrFieldAux key fields acc := by
  induction fields generalizing acc with
  | nil => rfl
  | cons kv rest ih =>
    obtain ⟨k, v⟩ := kv
    by_cases hk : eqFold k key = true
    · rw [List.filter_cons_of_pos (hp (k, v) hk)]
      cases v with
      | str s => simp only [getStrFieldAux, hk, if_true]; exact ih s
      | null => simp only [getStrFieldAux, hk, if_true]; exact ih acc
      | num n => simp only [getStrFieldAux, hk, if_true]
      | bool b => simp only [getStrFieldAux, hk, if_true]
      | arr es => simp only [getStrFieldAux, hk, if_true]
      | obj ms => simp only [getStrFieldAux, hk, if_true]
    · have hk' : eqFold k key = false := by simpa using hk
      cases hpkv : p (k, v) with
      | true =>
        rw [List.filter_cons_of_pos hpkv]
        simp only [getStrFieldAux, hk', Bool.false_eq_true, if_false]
        exact ih acc
      | false =>
        rw [List.filter_cons_of_neg (by simp [hpkv])]
        rw [show getStrFieldAux key ((k, v) :: rest) acc = getStrFieldAux key rest acc by
          simp only [getStrFieldAux, hk', Bool.false_eq_true, if_false]]
        exact ih acc

theorem getStrField_declaredOnly (names : List String) (key : String)
    (hkey : key ∈ names) (fields : List (String × JSON)) :
    getStrField (declaredOnly names fields) key = getStrField fields key := by
  apply getStrFieldAux_filter
  intro kv hkv
  simp only [List.any_eq_true]
  exact ⟨key, hkey, hkv⟩

/- ### Claim theorems -/

/-- C1: round-trip law — a successful SysWrite with filename F and content C,
followed by SysRead on F, returns exactly C.  The inputs are quantified over
all strings that parse to the corresponding JSON argument objects. -/
theorem sysWrite_sysRead_roundtrip (env₁ env₂ : List String) (fs : FS)
    (sw sr F C : String)
    (hw : parseJSON sw = some (.obj [("filename", .str F), ("content", .str C)]))
    (hr : parseJSON sr = some (.obj [("filename", .str F)])) :
    (SysWrite env₁ fs sw).2 = .ok "" ∧
    SysRead env₂ (SysWrite env₁ fs sw).1 sr = .ok C := by
  have hdw : decodeSysWriteParams sw = .ok ⟨F, C⟩ := by
    simp only [decodeSysWriteParams, unmarshalFields_of_parse hw]
    rfl
  have hdr : decodeSysReadParams sr = .ok ⟨F⟩ := by
    simp only [decodeSysReadParams, unmarshalFields_of_parse hr]
    rfl
  refine ⟨by simp [SysWrite, hdw], ?_⟩
  simp [SysWrite, hdw, SysRead, hdr, readFile, writeFile, List.lookup]

/-- C1 witness: writing "hello" to /tmp/t.txt and reading it back. -/
theorem sysWrite_sysRead_roundtrip_witness :
    (SysWrite [] [] "\x7b\"filename\":\"/tmp/t.txt\",\"content\":\"hello\"\x7d").2 = .ok "" ∧
    SysRead [] (SysWrite [] [] "\x7b\"filename\":\"/tmp/t.txt\",\"content\":\"hello\"\x7d").1
      "\x7b\"filename\":\"/tmp/t.txt\"\x7d" = .ok "hello" :=
  sysWrite_sysRead_roundtrip [] [] [] _ _ "/tmp/t.txt" "hello" rfl rfl

/-- C2 counterexample: for the unregistered name "nope", Builtin returns
found = false but the descriptor is not the zero value — its Name, ID and
Instructions are populated from the looked-up name. -/
theorem builtin_notFound_not_zero :
    (Builtin "nope").2 = false ∧
    (Builtin "nope").1 ≠ zeroTool ∧
    (Builtin "nope").1.Name = "nope" ∧
    (Builtin "nope").1.ID = "nope" ∧
    (Builtin "nope").1.Instructions = "#!nope" := by
  refine ⟨rfl, ?_, rfl, rfl, rfl⟩
  intro h
  have : (Builtin "nope").1.Name = zeroTool.Name := by rw [h]
  exact absurd this (by decide)

/-- C2 amended: for every name that is not a registered tool name, Builtin
returns found = false and a descriptor whose Name and ID equal the looked-up
name and whose Instructions is "#!" followed by the name, with every other
field (Description, Arguments, BuiltinFunc) at its zero value. -/
theorem builtin_notFound (name : String) (h : List.lookup name Tools = none) :
    Builtin name =
      ({ zeroTool with Name := name, ID := name, Instructions := "#!" ++ name }, false) := by
  simp [Builtin, h, zeroTool]

/-- C2 witness: the amended claim at the concrete unregistered name "nope". -/
theorem builtin_notFound_witness :
    Builtin "nope" =
      ({ zeroTool with Name := "nope", ID := "nope", Instructions := "#!" ++ "nope" }, false) :=
  builtin_notFound "nope" rfl

/-- C3: for each of the five handlers, when decoding the input fails the
handler returns that decode error and performs no I/O — SysRead's result is
the same for every filesystem, SysWrite returns the filesystem unchanged,
and the HTTP handlers' results are the same for every network oracle. -/
theorem decode_error_no_io (input : String) :
    (∀ e, decodeSysReadParams input = .error e →
      ∀ env fs, SysRead env fs input = .error e) ∧
    (∀ e, decodeSysWriteParams input = .error e →
      ∀ env fs, SysWrite env fs input = (fs, .error e)) ∧
    (∀ e, decodeSysHTTPGetParams input = .error e →
      ∀ get env, SysHTTPGet get env input = .error e) ∧
    (∀ e, decodeSysHTTPPostParams input = .error e →
      ∀ post env, SysHTTPPost post env input = .error e) ∧
    (∀ e, decodeSysAbortParams input = .error e →
      ∀ env, SysAbort env input = .error e) := by
  refine ⟨?_, ?_, ?_, ?_, ?_⟩
  · intro e h env fs; simp [SysRead, h]
  · intro e h env fs; simp [SysWrite, h]
  · intro e h get env; simp [SysHTTPGet, h]
  · intro e h post env; simp [SysHTTPPost, h]
  · intro e h env; simp [SysAbort, h]

/-- C3 witness: the malformed input "nope" produces the decode error on a
concrete filesystem without touching it. -/
theorem decode_error_no_io_witness :
    SysRead [] [("f", "data")] "nope" = .error "invalid JSON input" ∧
    SysWrite [] [("f", "data")] "nope" = ([("f", "data")], .error "invalid JSON input") :=
  ⟨(decode_error_no_io "nope").1 "invalid JSON input" rfl [] [("f", "data")],
   (decode_error_no_io "nope").2.1 "invalid JSON input" rfl [] [("f", "data")]⟩

/-- C4: SysAbort never succeeds — every input yields an error — and when the
input decodes to a message X the error text is "ABORT: " followed by X, which
contains both "ABORT:" and X as substrings. -/
theorem sysAbort_always_fails (env : List String) (input : String) :
    (∃ e, SysAbort env input = .error e) ∧
    (∀ msg, decodeSysAbortParams input = .ok ⟨msg⟩ →
      SysAbort env input = .error ("ABORT: " ++ msg) ∧
      strContains ("ABORT: " ++ msg) "ABORT:" ∧
      strContains ("ABORT: " ++ msg) msg) := by
  constructor
  · cases h : decodeSysAbortParams input with
    | error e => exact ⟨e, by simp [SysAbort, h]⟩
    | ok p => exact ⟨"ABORT: " ++ p.Message, by simp [SysAbort, h]⟩
  · intro msg h
    refine ⟨by simp [SysAbort, h], ?_, ?_⟩
    · refine strContains_intro _ _ [] (' ' :: msg.data) ?_
      rw [String.data_append]
      rfl
    · refine strContains_intro _ _ "ABORT: ".data [] ?_
      rw [String.data_append]
      simp

/-- C4 witness: aborting with the concrete message "boom". -/
theorem sysAbort_always_fails_witness :
    SysAbort [] "\x7b\"message\":\"boom\"\x7d" = .error ("ABORT: " ++ "boom") ∧
    strContains ("ABORT: " ++ "boom") "ABORT:" ∧
    strContains ("ABORT: " ++ "boom") "boom" :=
  (sysAbort_always_fails [] "\x7b\"message\":\"boom\"\x7d").2 "boom" rfl

/-- C5: for every registered tool name, Builtin returns found = true and a
descriptor whose Name and ID equal the name and whose Instructions is the
builtin marker "#!" followed by the name. -/
theorem builtin_found (name : String) (t : Tool)
    (h : List.lookup name Tools = some t) :
    (Builtin name).2 = true ∧
    (Builtin name).1.Name = name ∧
    (Builtin name).1.ID = name ∧
    (Builtin name).1.Instructions = "#!" ++ name := by
  simp [Builtin, h]

/-- C5 witness: looking up the registered name "sys.read". -/
theorem builtin_found_witness :
    (Builtin "sys.read").2 = true ∧
    (Builtin "sys.read").1.Name = "sys.read" ∧
    (Builtin "sys.read").1.ID = "sys.read" ∧
    (Builtin "sys.read").1.Instructions = "#!" ++ "sys.read" :=
  builtin_found "sys.read"
    { Description := "Reads the contents of a file",
      Arguments := ObjectSchema [("filename", "The name of the file to read")],
      BuiltinFunc := some .sysRead }
    rfl

/-- C6: ListTools returns as many descriptors as the registry has entries,
sorted ascending by Name, and each descriptor is exactly what Builtin
returns for its name. -/
theorem listTools_sorted_complete :
    ListTools.length = Tools.length ∧
    List.Pairwise (fun a b => strLt a.Name b.Name = true) ListTools ∧
    List.Forall (fun t => t = (Builtin t.Name).1) ListTools := by
  decide

/-- C7: SysHTTPGet on a received response — status 200 returns the body
exactly; any other status yields an error containing the URL and the status
text (and not built from the body). -/
theorem sysHTTPGet_status (get : String → HTTPResult) (env : List String)
    (input url : String) (hd : decodeSysHTTPGetParams input = .ok ⟨url⟩)
    (r : HTTPResponse) (hr : get url = .resp r) :
    (∀ S, r.statusCode = 200 → r.body = .ok S → SysHTTPGet get env input = .ok S) ∧
    (r.statusCode ≠ 200 →
      SysHTTPGet get env input =
        .error ("failed to download " ++ url ++ ": " ++ r.status) ∧
      strContains ("failed to download " ++ url ++ ": " ++ r.status) url ∧
      strContains ("failed to download " ++ url ++ ": " ++ r.status) r.status) := by
  constructor
  · intro S h200 hbody
    simp [SysHTTPGet, hd, hr, h200, hbody]
  · intro hne
    refine ⟨by simp [SysHTTPGet, hd, hr, hne], ?_, ?_⟩
    · refine strContains_intro _ _ "failed to download ".data (": ".data ++ r.status.data) ?_
      simp [String.data_append, List.append_assoc]
    · refine strContains_intro _ _ ("failed to download " ++ url ++ ": ").data [] ?_
      simp [String.data_append, List.append_assoc]

/-- C7 witness: a 200 response returns the body; a 404 response yields the
synthesized error naming the URL and the status text. -/
theorem sysHTTPGet_status_witness :
    SysHTTPGet (fun _ => .resp ⟨200, "200 OK", .ok "hello"⟩) [] "\x7b\"url\":\"http://x\"\x7d" =
      .ok "hello" ∧
    (SysHTTPGet (fun _ => .resp ⟨404, "404 Not Found", .ok "nf"⟩) [] "\x7b\"url\":\"http://x\"\x7d" =
      .error ("failed to download " ++ "http://x" ++ ": " ++ "404 Not Found") ∧
     strContains ("failed to download " ++ "http://x" ++ ": " ++ "404 Not Found") "http://x" ∧
     strContains ("failed to download " ++ "http://x" ++ ": " ++ "404 Not Found") "404 Not Found") :=
  ⟨(sysHTTPGet_status (fun _ => .resp ⟨200, "200 OK", .ok "hello"⟩) []
      "\x7b\"url\":\"http://x\"\x7d" "http://x" rfl ⟨200, "200 OK", .ok "hello"⟩ rfl).1
      "hello" rfl rfl,
   (sysHTTPGet_status (fun _ => .resp ⟨404, "404 Not Found", .ok "nf"⟩) []
      "\x7b\"url\":\"http://x\"\x7d" "http://x" rfl ⟨404, "404 Not Found", .ok "nf"⟩ rfl).2
      (by decide)⟩

/-- C8: SysHTTPPost on a received response — status at most 399 returns the
success message naming the posted byte count and the URL; status above 399
yields an error containing the URL and the status text; and the result never
depends on the response body (read and discarded). -/
theorem sysHTTPPost_status (post : String → String → Option String → HTTPResult)
    (env : List String) (input url content ctype : String)
    (hd : decodeSysHTTPPostParams input = .ok ⟨url, content, ctype⟩)
    (r : HTTPResponse)
    (hr : post url content (if ctype ≠ "" then some ctype else none) = .resp r) :
    (r.statusCode ≤ 399 →
      SysHTTPPost post env input =
        .ok ("Wrote " ++ toString content.utf8ByteSize ++ " to " ++ url) ∧
      strContains ("Wrote " ++ toString content.utf8ByteSize ++ " to " ++ url)
        (toString content.utf8ByteSize) ∧
      strContains ("Wrote " ++ toString content.utf8ByteSize ++ " to " ++ url) url) ∧
    (r.statusCode > 399 →
      SysHTTPPost post env input = .error ("failed to post " ++ url ++ ": " ++ r.status) ∧
      strContains ("failed to post " ++ url ++ ": " ++ r.status) url ∧
      strContains ("failed to post " ++ url ++ ": " ++ r.status) r.status) ∧
    (∀ b, SysHTTPPost
        (fun u c t => match post u c t with
          | .resp r₂ => .resp ⟨r₂.statusCode, r₂.status, b⟩
          | .fail e => .fail e) env input =
      SysHTTPPost post env input) := by
  have hr' : post url content (if ctype = "" then none else some ctype) = .resp r := by
    simpa using hr
  refine ⟨?_, ?_, ?_⟩
  · intro hle
    have hnle : ¬ (r.statusCode > 399) := by omega
    refine ⟨by simp [SysHTTPPost, hd, hr', hnle], ?_, ?_⟩
    · refine strContains_intro _ _ "Wrote ".data (" to ".data ++ url.data) ?_
      simp [String.data_append, List.append_assoc]
    · refine strContains_intro _ _
        ("Wrote " ++ toString content.utf8ByteSize ++ " to ").data [] ?_
      simp [String.data_append, List.append_assoc]
  · intro hgt
    refine ⟨by simp [SysHTTPPost, hd, hr', hgt], ?_, ?_⟩
    · refine strContains_intro _ _ "failed to post ".data (": ".data ++ r.status.data) ?_
      simp [String.data_append, List.append_assoc]
    · refine strContains_intro _ _ ("failed to post " ++ url ++ ": ").data [] ?_
      simp [String.data_append, List.append_assoc]
  · intro b
    cases hdp : decodeSysHTTPPostParams input with
    | error e => simp [SysHTTPPost, hdp]
    | ok p =>
      simp only [SysHTTPPost, hdp]
      cases hpo : post p.URL p.Content
          (if p.ContentType ≠ "" then some p.ContentType else none) with
      | fail e => simp [hpo]
      | resp r₂ => simp [hpo]

/-- C8 witness: posting "hello" (5 bytes) against a 200 server yields the
success message naming the byte count and the URL. -/
theorem sysHTTPPost_status_witness :
    SysHTTPPost (fun _ _ _ => .resp ⟨200, "200 OK", .ok "resp"⟩) []
      "\x7b\"url\":\"http://x\",\"content\":\"hello\"\x7d" =
      .ok ("Wrote " ++ toString ("hello" : String).utf8ByteSize ++ " to " ++ "http://x") ∧
    strContains ("Wrote " ++ toString ("hello" : String).utf8ByteSize ++ " to " ++ "http://x")
      (toString ("hello" : String).utf8ByteSize) ∧
    strContains ("Wrote " ++ toString ("hello" : String).utf8ByteSize ++ " to " ++ "http://x")
      "http://x" :=
  (sysHTTPPost_status (fun _ _ _ => .resp ⟨200, "200 OK", .ok "resp"⟩) []
    "\x7b\"url\":\"http://x\",\"content\":\"hello\"\x7d" "http://x" "hello" "" rfl
    ⟨200, "200 OK", .ok "resp"⟩ rfl).1 (by decide)

/-- C9: for every handler and every one of its declared parameter fields, a
well-formed JSON object input that omits that field (no key matching it)
decodes without any validation error, the omitted field defaulting to the
empty string while the remaining fields decode to whatever values they
otherwise would; in particular SysRead and SysWrite with no "filename"
field perform the filesystem operation on the empty path, and SysWrite with
no "content" field writes the empty string. -/
theorem omitted_field_defaults (input : String) (fields : List (String × JSON))
    (hp : parseJSON input = some (.obj fields)) :
    ((∀ kv ∈ fields, eqFold kv.1 "filename" = false) →
      decodeSysReadParams input = .ok ⟨""⟩ ∧
      ∀ env fs, SysRead env fs input = readFile fs "") ∧
    ((∀ kv ∈ fields, eqFold kv.1 "filename" = false) →
      ∀ c, getStrField fields "content" = .ok c →
      decodeSysWriteParams input = .ok ⟨"", c⟩ ∧
      ∀ env fs, SysWrite env fs input = (writeFile fs "" c, .ok "")) ∧
    ((∀ kv ∈ fields, eqFold kv.1 "content" = false) →
      ∀ f, getStrField fields "filename" = .ok f →
      decodeSysWriteParams input = .ok ⟨f, ""⟩ ∧
      ∀ env fs, SysWrite env fs input = (writeFile fs f "", .ok "")) ∧
    ((∀ kv ∈ fields, eqFold kv.1 "url" = false) →
      decodeSysHTTPGetParams input = .ok ⟨""⟩) ∧
    ((∀ kv ∈ fields, eqFold kv.1 "url" = false) →
      ∀ c t, getStrField fields "content" = .ok c →
      getStrField fields "contentType" = .ok t →
      decodeSysHTTPPostParams input = .ok ⟨"", c, t⟩) ∧
    ((∀ kv ∈ fields, eqFold kv.1 "content" = false) →
      ∀ u t, getStrField fields "url" = .ok u →
      getStrField fields "contentType" = .ok t →
      decodeSysHTTPPostParams input = .ok ⟨u, "", t⟩) ∧
    ((∀ kv ∈ fields, eqFold kv.1 "contentType" = false) →
      ∀ u c, getStrField fields "url" = .ok u →
      getStrField fields "content" = .ok c →
      decodeSysHTTPPostParams input = .ok ⟨u, c, ""⟩) ∧
    ((∀ kv ∈ fields, eqFold kv.1 "message" = false) →
      decodeSysAbortParams input = .ok ⟨""⟩) := by
  refine ⟨?_, ?_, ?_, ?_, ?_, ?_, ?_, ?_⟩
  · intro h
    have hd : decodeSysReadParams input = .ok ⟨""⟩ := by
      simp [decodeSysReadParams, unmarshalFields_of_parse hp, getStrField_of_noMatch _ _ h]
    exact ⟨hd, fun env fs => by simp [SysRead, hd]⟩
  · intro h c hc
    have hd : decodeSysWriteParams input = .ok ⟨"", c⟩ := by
      simp [decodeSysWriteParams, unmarshalFields_of_parse hp,
        getStrField_of_noMatch _ _ h, hc]
    exact ⟨hd, fun env fs => by simp [SysWrite, hd]⟩
  · intro h f hf
    have hd : decodeSysWriteParams input = .ok ⟨f, ""⟩ := by
      simp [decodeSysWriteParams, unmarshalFields_of_parse hp,
        getStrField_of_noMatch _ _ h, hf]
    exact ⟨hd, fun env fs => by simp [SysWrite, hd]⟩
  · intro h
    simp [decodeSysHTTPGetParams, unmarshalFields_of_parse hp, getStrField_of_noMatch _ _ h]
  · intro h c t hc ht
    simp [decodeSysHTTPPostParams, unmarshalFields_of_parse hp,
      getStrField_of_noMatch _ _ h, hc, ht]
  · intro h u t hu ht
    simp [decodeSysHTTPPostParams, unmarshalFields_of_parse hp,
      getStrField_of_noMatch _ _ h, hu, ht]
  · intro h u c hu hc
    simp [decodeSysHTTPPostParams, unmarshalFields_of_parse hp,
      getStrField_of_noMatch _ _ h, hu, hc]
  · intro h
    simp [decodeSysAbortParams, unmarshalFields_of_parse hp, getStrField_of_noMatch _ _ h]

/-- C9 witness: the object `{"other":"x"}` omits "filename", so SysRead
accepts it and reads the empty path; and the object `{"filename":"f"}`
omits "content", so SysWrite accepts it and writes the empty string to the
file "f". -/
theorem omitted_field_defaults_witness :
    (decodeSysReadParams "\x7b\"other\":\"x\"\x7d" = .ok ⟨""⟩ ∧
      ∀ env fs, SysRead env fs "\x7b\"other\":\"x\"\x7d" = readFile fs "") ∧
    (decodeSysWriteParams "\x7b\"filename\":\"f\"\x7d" = .ok ⟨"f", ""⟩ ∧
      ∀ env fs, SysWrite env fs "\x7b\"filename\":\"f\"\x7d" = (writeFile fs "f" "", .ok "")) :=
  ⟨(omitted_field_defaults "\x7b\"other\":\"x\"\x7d" [("other", .str "x")] rfl).1 (by decide),
   (omitted_field_defaults "\x7b\"filename\":\"f\"\x7d" [("filename", .str "f")] rfl).2.2.1
     (by decide) "f" rfl⟩

/-- C10 counterexample: "FILENAME" is not a declared parameter name of
SysRead (the only declared name is "filename"), yet adding the field
"FILENAME":"b" to an input changes the handler's output, because
`encoding/json` matches field names case-insensitively: on the filesystem
[a ↦ "A", b ↦ "B"] the input with the extra field reads file "b" while the
input without it reads file "a". -/
theorem extra_field_changes_sysRead :
    parseJSON "\x7b\"filename\":\"a\",\"FILENAME\":\"b\"\x7d" =
      some (.obj [("filename", .str "a"), ("FILENAME", .str "b")]) ∧
    "FILENAME" ≠ "filename" ∧
    SysRead [] [("a", "A"), ("b", "B")] "\x7b\"filename\":\"a\",\"FILENAME\":\"b\"\x7d" =
      .ok "B" ∧
    SysRead [] [("a", "A"), ("b", "B")] "\x7b\"filename\":\"a\"\x7d" = .ok "A" :=
  ⟨rfl, by decide, rfl, rfl⟩

/-- C10 amended: object fields whose names do not case-insensitively match
one of the handler's declared parameter names never cause a decode error and
never affect the output: every handler decodes and behaves identically on an
input and on the same input with those fields removed.  (Field-name matching
in `encoding/json` is case-insensitive, so a field such as "FILENAME" does
count as matching "filename".) -/
theorem unmatched_fields_ignored (s sf : String) (fields : List (String × JSON))
    (hs : parseJSON s = some (.obj fields)) :
    (parseJSON sf = some (.obj (declaredOnly ["filename"] fields)) →
      decodeSysReadParams sf = decodeSysReadParams s ∧
      ∀ env fs, SysRead env fs s = SysRead env fs sf) ∧
    (parseJSON sf = some (.obj (declaredOnly ["filename", "content"] fields)) →
      decodeSysWriteParams sf = decodeSysWriteParams s ∧
      ∀ env fs, SysWrite env fs s = SysWrite env fs sf) ∧
    (parseJSON sf = some (.obj (declaredOnly ["url"] fields)) →
      decodeSysHTTPGetParams sf = decodeSysHTTPGetParams s ∧
      ∀ get env, SysHTTPGet get env s = SysHTTPGet get env sf) ∧
    (parseJSON sf = some (.obj (declaredOnly ["url", "content", "contentType"] fields)) →
      decodeSysHTTPPostParams sf = decodeSysHTTPPostParams s ∧
      ∀ post env, SysHTTPPost post env s = SysHTTPPost post env sf) ∧
    (parseJSON sf = some (.obj (declaredOnly ["message"] fields)) →
      decodeSysAbortParams sf = decodeSysAbortParams s ∧
      ∀ env, SysAbort env s = SysAbort env sf) := by
  refine ⟨?_, ?_, ?_, ?_, ?_⟩
  · intro hsf
    have hd : decodeSysReadParams sf = decodeSysReadParams s := by
      simp only [decodeSysReadParams, unmarshalFields_of_parse hs,
        unmarshalFields_of_parse hsf,
        getStrField_declaredOnly ["filename"] "filename" (by simp) fields]
    exact ⟨hd, fun env fs => by simp [SysRead, hd]⟩
  · intro hsf
    have hd : decodeSysWriteParams sf = decodeSysWriteParams s := by
      simp only [decodeSysWriteParams, unmarshalFields_of_parse hs,
        unmarshalFields_of_parse hsf,
        getStrField_declaredOnly ["filename", "content"] "filename" (by simp) fields,
        getStrField_declaredOnly ["filename", "content"] "content" (by simp) fields]
    exact ⟨hd, fun env fs => by simp [SysWrite, hd]⟩
  · intro hsf
    have hd : decodeSysHTTPGetParams sf = decodeSysHTTPGetParams s := by
      simp only [decodeSysHTTPGetParams, unmarshalFields_of_parse hs,
        unmarshalFields_of_parse hsf,
        getStrField_declaredOnly ["url"] "url" (by simp) fields]
    exact ⟨hd, fun get env => by simp [SysHTTPGet, hd]⟩
  · intro hsf
    have hd : decodeSysHTTPPostParams sf = decodeSysHTTPPostParams s := by
      simp only [decodeSysHTTPPostParams, unmarshalFields_of_parse hs,
        unmarshalFields_of_parse hsf,
        getStrField_declaredOnly ["url", "content", "contentType"] "url" (by simp) fields,
        getStrField_declaredOnly ["url", "content", "contentType"] "content" (by simp) fields,
        getStrField_declaredOnly ["url", "content", "contentType"] "contentType" (by simp) fields]
    exact ⟨hd, fun post env => by simp [SysHTTPPost, hd]⟩
  · intro hsf
    have hd : decodeSysAbortParams sf = decodeSysAbortParams s := by
      simp only [decodeSysAbortParams, unmarshalFields_of_parse hs,
        unmarshalFields_of_parse hsf,
        getStrField_declaredOnly ["message"] "message" (by simp) fields]
    exact ⟨hd, fun env => by simp [SysAbort, hd]⟩

/-- C10 amended witness: the field "other" matches no declared name of
SysRead, and removing it leaves the result unchanged. -/
theorem unmatched_fields_ignored_witness :
    decodeSysReadParams "\x7b\"filename\":\"a\"\x7d" =
      decodeSysReadParams "\x7b\"filename\":\"a\",\"other\":\"b\"\x7d" ∧
    ∀ env fs, SysRead env fs "\x7b\"filename\":\"a\",\"other\":\"b\"\x7d" =
      SysRead env fs "\x7b\"filename\":\"a\"\x7d" :=
  (unmatched_fields_ignored "\x7b\"filename\":\"a\",\"other\":\"b\"\x7d"
    "\x7b\"filename\":\"a\"\x7d" [("filename", .str "a"), ("other", .str "b")] rfl).1 rfl
